import Mathlib

/-!
Verification development for the svg2gcode repository (Go).

The source files `geometry.go` and `svg2gcode.go` are shallowly embedded
below.  Floating-point values are modelled by real numbers (`math.Hypot`
and hence `Real.sqrt` make the geometry irrational in general, so `ℝ` is
the faithful carrier); machine formatting (`%.3f`) is treated as an
external serialization concern, so emitted G-code is modelled as a list
of abstract instructions carrying real values.  The unbounded `for` loop
in `writeGcode` and the unbounded recursion in `flattenCubicBezier` are
embedded with an explicit fuel parameter: fuel exhaustion returns `none`,
so `∃ fuel, (… fuel …).isSome` expresses termination of the source code.
-/

/-- `Point` from geometry.go: a pair of coordinates. -/
structure Point where
  X : ℝ
  Y : ℝ

/-- `Transform` from geometry.go: 2x3 matrix `[ A C E ; B D F ]`. -/
structure Transform where
  A : ℝ
  B : ℝ
  C : ℝ
  D : ℝ
  E : ℝ
  F : ℝ

/-- `identityTransform` from geometry.go: `[1 0 0; 0 1 0]`. -/
def identityTransform : Transform :=
  ⟨1, 0, 0, 1, 0, 0⟩

/-- `Transform.Mul` from geometry.go: `t ∘ u` (apply `u`, then `t`). -/
def Transform.Mul (t u : Transform) : Transform :=
  ⟨t.A * u.A + t.C * u.B,
   t.B * u.A + t.D * u.B,
   t.A * u.C + t.C * u.D,
   t.B * u.C + t.D * u.D,
   t.A * u.E + t.C * u.F + t.E,
   t.B * u.E + t.D * u.F + t.F⟩

/-- `Transform.Apply` from geometry.go. -/
def Transform.Apply (t : Transform) (p : Point) : Point :=
  ⟨t.A * p.X + t.C * p.Y + t.E,
   t.B * p.X + t.D * p.Y + t.F⟩

/-- ASCII whitespace recognized by Go's `strings.Fields` (via `unicode.IsSpace`). -/
def isSpaceChar (c : Char) : Bool :=
  c == ' ' || c == '\t' || c == '\n' || c == '\x0b' || c == '\x0c' || c == '\r'

/-- Helper for `fields`: splits a character list on whitespace, accumulating
the current (reversed) word. -/
def fieldsAux : List Char → List Char → List String
  | [], acc => if acc.isEmpty then [] else [String.mk acc.reverse]
  | c :: rest, acc =>
    if isSpaceChar c then
      if acc.isEmpty then fieldsAux rest []
      else String.mk acc.reverse :: fieldsAux rest []
    else fieldsAux rest (c :: acc)

/-- Go's `strings.Fields`: split around runs of whitespace. -/
def fields (s : List Char) : List String :=
  fieldsAux s []

/-- The `commands` string literal inside `tokenizePathData` in svg2gcode.go.
Note: `C` and `c` are absent in the source. -/
def tokenizeCommands : List Char :=
  "MmLlHhVvZz".data

/-- `tokenizePathData` from svg2gcode.go: insert spaces around the letters of
`tokenizeCommands`, replace commas with spaces, then split into fields. -/
def tokenizePathData (d : String) : List String :=
  fields (d.data.foldr
    (fun r acc =>
      if tokenizeCommands.contains r then ' ' :: r :: ' ' :: acc
      else if r == ',' then ' ' :: acc
      else r :: acc) [])

/-- `isCommand` from svg2gcode.go: a single-character token that is one of
the supported command letters (including `C`/`c`). -/
def isCommand (tok : String) : Bool :=
  match tok.data with
  | [c] => ['C', 'c', 'M', 'm', 'L', 'l', 'H', 'h', 'V', 'v', 'Z', 'z'].contains c
  | _ => false

noncomputable section

/-- Go's `math.Hypot`: the square root of the sum of squares. -/
def hypot (a b : ℝ) : ℝ :=
  Real.sqrt (a ^ 2 + b ^ 2)

/-- `lerp` from geometry.go. -/
def lerp (a b : Point) (t : ℝ) : Point :=
  ⟨a.X + (b.X - a.X) * t, a.Y + (b.Y - a.Y) * t⟩

/-- `distPointToLine` from geometry.go: perpendicular distance from `p` to the
infinite line `a`-`b`, falling back to the Euclidean distance to `a` when
`a = b`. -/
def distPointToLine (p a b : Point) : ℝ :=
  let dx := b.X - a.X
  let dy := b.Y - a.Y
  if dx = 0 ∧ dy = 0 then
    hypot (p.X - a.X) (p.Y - a.Y)
  else
    let t := ((p.X - a.X) * dx + (p.Y - a.Y) * dy) / (dx * dx + dy * dy)
    let px := a.X + t * dx
    let py := a.Y + t * dy
    hypot (p.X - px) (p.Y - py)

/-- `cross` from geometry.go. -/
def cross (a b : Point) : ℝ :=
  a.X * b.Y - a.Y * b.X

/-- `almostEqualPoint` from geometry.go (eps = 1e-9, strict comparison). -/
def almostEqualPoint (a b : Point) : Bool :=
  if |a.X - b.X| < 1e-9 ∧ |a.Y - b.Y| < 1e-9 then true else false

/-- `flattenCubicBezier` from geometry.go, with an explicit fuel parameter
modelling its unbounded recursion: `none` means the recursion did not finish
within `fuel` levels.  The source appends to `out` the left half's points and
then the right half's, which the embedding returns as `l ++ r`. -/
def flattenCubicBezier : Nat → Point → Point → Point → Point → ℝ → Option (List Point)
  | 0, _, _, _, _, _ => none
  | fuel + 1, p0, p1, p2, p3, flatness =>
    if distPointToLine p1 p0 p3 ≤ flatness ∧ distPointToLine p2 p0 p3 ≤ flatness then
      some [p3]
    else
      let m01 := lerp p0 p1 0.5
      let m12 := lerp p1 p2 0.5
      let m23 := lerp p2 p3 0.5
      let m012 := lerp m01 m12 0.5
      let m123 := lerp m12 m23 0.5
      let m0123 := lerp m012 m123 0.5
      match flattenCubicBezier fuel p0 m01 m012 m0123 flatness,
            flattenCubicBezier fuel m0123 m123 m23 p3 flatness with
      | some l, some r => some (l ++ r)
      | _, _ => none

/-- Cyclic indexing used by `offsetPolygon`: Go reads `poly[i % n]` patterns
(`(j+1)%n`, `(i-1+n)%n`); out-of-range defaults never arise for `i % n`. -/
def nth (l : List Point) (i : ℕ) : Point :=
  l.getD (i % l.length) ⟨0, 0⟩

/-- The normalization loop at the top of `offsetPolygon`: copy every point,
except that the final point is dropped when it `almostEqualPoint`-matches
`points[0]`. -/
def dropClosing (points : List Point) : List Point :=
  match points.getLast? with
  | none => []
  | some q =>
    if almostEqualPoint q (points.headD ⟨0, 0⟩) then points.dropLast else points

/-- The signed-area (shoelace) accumulation in `offsetPolygon`. -/
def shoelace (poly : List Point) : ℝ :=
  0.5 * ((List.range poly.length).map (fun i =>
    (nth poly i).X * (nth poly (i + 1)).Y - (nth poly (i + 1)).X * (nth poly i).Y)).sum

/-- `dirs[j]` in `offsetPolygon`: direction of the edge from vertex `j` to
vertex `(j+1) % n`. -/
def edgeDir (poly : List Point) (j : ℕ) : Point :=
  ⟨(nth poly (j + 1)).X - (nth poly j).X, (nth poly (j + 1)).Y - (nth poly j).Y⟩

/-- `norms[j]` in `offsetPolygon`: unit normal of edge `j`, pointing into the
interior for positive area (left-hand perpendicular) or negative area
(right-hand perpendicular), negated unless `mode == "inside"`. -/
def edgeNorm (poly : List Point) (area : ℝ) (mode : String) (j : ℕ) : Point :=
  let ex := (edgeDir poly j).X
  let ey := (edgeDir poly j).Y
  let len0 := hypot ex ey
  let len := if len0 = 0 then 1 else len0
  let nIn : Point := if 0 < area then ⟨-ey / len, ex / len⟩ else ⟨ey / len, -ex / len⟩
  if mode = "inside" then nIn else ⟨-nIn.X, -nIn.Y⟩

/-- The body of the vertex loop in `offsetPolygon`: intersect the two
adjacent offset lines, falling back to the second offset line's start point
when the edges are nearly parallel. -/
def offsetVertex (poly : List Point) (delta area : ℝ) (mode : String) (i : ℕ) : Point :=
  let prev := (i + poly.length - 1) % poly.length
  let q0 : Point := ⟨(nth poly prev).X + (edgeNorm poly area mode prev).X * delta,
                     (nth poly prev).Y + (edgeNorm poly area mode prev).Y * delta⟩
  let q1 : Point := ⟨(nth poly i).X + (edgeNorm poly area mode i).X * delta,
                     (nth poly i).Y + (edgeNorm poly area mode i).Y * delta⟩
  if |cross (edgeDir poly prev) (edgeDir poly i)| < 1e-9 then q1
  else
    let t := -cross ⟨q0.X - q1.X, q0.Y - q1.Y⟩ (edgeDir poly i) /
      cross (edgeDir poly prev) (edgeDir poly i)
    ⟨q0.X + (edgeDir poly prev).X * t, q0.Y + (edgeDir poly prev).Y * t⟩

/-- `offsetPolygon` from svg2gcode.go. -/
def offsetPolygon (points : List Point) (delta : ℝ) (mode : String) : List Point :=
  if delta = 0 ∨ points.length < 3 then points
  else if (dropClosing points).length < 3 then dropClosing points
  else if |shoelace (dropClosing points)| < 1e-9 then dropClosing points
  else
    match (List.range (dropClosing points).length).map
        (offsetVertex (dropClosing points) delta (shoelace (dropClosing points)) mode) with
    | [] => []
    | r0 :: rest => (r0 :: rest) ++ [r0]

/-- `Path` from svg2gcode.go (named `GPath` here because Mathlib already
declares `Path`). -/
structure GPath where
  Points : List Point
  Closed : Bool
  Stroke : String

/-- `Config` from svg2gcode.go. -/
structure Config where
  SafeZ : ℝ
  CutDepth : ℝ
  StepDown : ℝ
  CutFeed : ℝ
  PlungeFeed : ℝ
  Scale : ℝ
  ToolDia : ℝ
  Compensation : String
  ConstructionColor : String
  SvgWidth : ℝ
  SvgHeight : ℝ

/-- One emitted G-code line, with numeric values unformatted (the `%.3f`
layout is serialization, external to the core). -/
inductive Instr : Type
  | comment : String → Instr
  | pathMarker : ℕ → String → Instr
  | unitsMM : Instr
  | absMode : Instr
  | rapid : Option ℝ → Option ℝ → Option ℝ → Instr
  | linear : Option ℝ → Option ℝ → Option ℝ → ℝ → Instr
  | spindleOff : Instr
  | programEnd : Instr

/-- Whether an instruction commands machine motion (G0 or G1). -/
def Instr.isMotion : Instr → Bool
  | Instr.rapid _ _ _ => true
  | Instr.linear _ _ _ _ => true
  | _ => false

/-- The error returned by `writeGcode` when `cfg.CutDepth >= 0`. -/
inductive GcodeError : Type
  | cutDepthNonNegative : ℝ → GcodeError

/-- `writePoint` from svg2gcode.go: SVG to machine coordinates (scale and
Y-flip). -/
def writePoint (pt : Point) (cfg : Config) : ℝ × ℝ :=
  (pt.X * cfg.Scale, (cfg.SvgHeight - pt.Y) * cfg.Scale)

/-- The inner cut loop of a pass: `G1` to every point after the first. -/
def cutMoves (pts : List Point) (cfg : Config) : List Instr :=
  (pts.drop 1).map (fun pt =>
    Instr.linear (some (writePoint pt cfg).1) (some (writePoint pt cfg).2) none cfg.CutFeed)

/-- The per-entity depth-stepping `for` loop of `writeGcode`, with fuel.
Faithful to the source, including the final `z = cfg.SafeZ` of the loop
body (svg2gcode.go line 507): the recursive call restarts from `cfg.SafeZ`,
not from the depth just reached. -/
def passLoop (cfg : Config) (step targetZ x0 y0 : ℝ) (pts : List Point) :
    Nat → ℝ → Option (List Instr)
  | 0, _ => none
  | fuel + 1, z =>
    let nextZ := if z - step < targetZ then targetZ else z - step
    let pass := Instr.linear none none (some nextZ) cfg.PlungeFeed :: cutMoves pts cfg
    if nextZ ≤ targetZ then some pass
    else
      match passLoop cfg step targetZ x0 y0 pts fuel cfg.SafeZ with
      | none => none
      | some rest =>
        some (pass ++ Instr.rapid none none (some cfg.SafeZ) ::
          Instr.rapid (some x0) (some y0) none :: rest)

/-- One iteration of the entity loop in `writeGcode`: skip empty entities,
otherwise rapid to the first point, rapid to safe height, run the depth
passes, and retract. -/
def pathGcode (cfg : Config) (step targetZ : ℝ) (fuel : Nat) (idx : ℕ) (p : GPath) :
    Option (List Instr) :=
  match p.Points with
  | [] => some []
  | first :: _ =>
    (passLoop cfg step targetZ (writePoint first cfg).1 (writePoint first cfg).2
        p.Points fuel cfg.SafeZ).map
      (fun body =>
        Instr.pathMarker idx p.Stroke ::
        Instr.rapid (some (writePoint first cfg).1) (some (writePoint first cfg).2) none ::
        Instr.rapid none none (some cfg.SafeZ) ::
        (body ++ [Instr.rapid none none (some cfg.SafeZ)]))

/-- The entity loop of `writeGcode` (entity indices start at 1 in the
emitted comments). -/
def pathsGcode (cfg : Config) (step targetZ : ℝ) (fuel : Nat) :
    ℕ → List GPath → Option (List Instr)
  | _, [] => some []
  | idx, p :: rest =>
    match pathGcode cfg step targetZ fuel idx p,
          pathsGcode cfg step targetZ fuel (idx + 1) rest with
    | some is, some more => some (is ++ more)
    | _, _ => none

/-- The four lines `writeGcode` emits before validating the configuration:
header comment, `G21`, `G90`, and a rapid to safe height. -/
def preamble (cfg : Config) : List Instr :=
  [Instr.comment "(Generated by svg2gcode)", Instr.unitsMM, Instr.absMode,
   Instr.rapid none none (some cfg.SafeZ)]

/-- The cutter-compensation block of `writeGcode`: for non-`none` modes with
positive tool diameter, closed paths are offset by the tool radius in SVG
units and degenerate results (fewer than 2 points) are dropped. -/
def compensate (paths : List GPath) (cfg : Config) : List GPath :=
  if cfg.Compensation ≠ "none" ∧ cfg.ToolDia > 0 then
    paths.filterMap (fun p =>
      if p.Closed then
        if (offsetPolygon p.Points (cfg.ToolDia / 2 / cfg.Scale) cfg.Compensation).length < 2 then
          none
        else
          some ⟨offsetPolygon p.Points (cfg.ToolDia / 2 / cfg.Scale) cfg.Compensation, true,
            p.Stroke⟩
      else some p)
  else paths

/-- `writeGcode` from svg2gcode.go, with fuel for the unbounded pass loops.
Result: emitted instructions plus the error, if any; `none` means some pass
loop did not finish within the fuel. -/
def writeGcode (paths : List GPath) (cfg : Config) (fuel : Nat) :
    Option (List Instr × Option GcodeError) :=
  if cfg.CutDepth ≥ 0 then
    some (preamble cfg, some (GcodeError.cutDepthNonNegative cfg.CutDepth))
  else
    let targetZ := cfg.CutDepth
    let step := |if cfg.StepDown ≤ 0 then |targetZ - cfg.SafeZ| else cfg.StepDown|
    match pathsGcode cfg step targetZ fuel 1 (compensate paths cfg) with
    | none => none
    | some body => some (preamble cfg ++ body ++ [Instr.spindleOff, Instr.programEnd], none)

/-- Squared Euclidean norm of a point, used by the termination measure. -/
def nsq (a : Point) : ℝ :=
  a.X ^ 2 + a.Y ^ 2

/-- Second difference of three consecutive control points. -/
def secA (p0 p1 p2 : Point) : Point :=
  ⟨p0.X - 2 * p1.X + p2.X, p0.Y - 2 * p1.Y + p2.Y⟩

/-- Termination measure for `flattenCubicBezier`: the larger squared norm of
the two second differences of the control polygon.  It shrinks by a factor
of 16 under De Casteljau bisection. -/
def bezMeasure (p0 p1 p2 p3 : Point) : ℝ :=
  max (nsq (secA p0 p1 p2)) (nsq (secA p1 p2 p3))

/-- A concrete configuration requiring several passes: safe height 5,
cut depth -1, step-down 1 (depth range 6, so 6 passes are expected). -/
def cfgStep1 : Config :=
  ⟨5, -1, 1, 300, 120, 1, 0, "none", "", 100, 100⟩

/-- A concrete configuration with step-down 2 (depth range 6, so
ceil(6 / 2) = 3 passes are expected). -/
def cfgStep2 : Config :=
  ⟨5, -1, 2, 300, 120, 1, 0, "none", "", 100, 100⟩

/-- A concrete invalid configuration: cut depth 0 (must be negative). -/
def cfgZeroDepth : Config :=
  ⟨5, 0, 0, 300, 120, 1, 0, "none", "", 100, 100⟩

/-- A one-point entity. -/
def onePointEntity : GPath :=
  ⟨[⟨0, 0⟩], false, "#000000"⟩

/-- C9: composed transforms apply the inner transform first:
`Mul(t, u).Apply(p) == t.Apply(u.Apply(p))`, exactly, over the reals. -/
theorem Transform_Mul_Apply (t u : Transform) (p : Point) :
    (t.Mul u).Apply p = t.Apply (u.Apply p) := by
  cases t
  cases u
  cases p
  simp only [Transform.Mul, Transform.Apply, Point.mk.injEq]
  constructor <;> ring

/-- C5: the tokenizer does NOT insert spaces around `C`/`c` (the `commands`
string in the source omits them), so the supported command letter `C` written
adjacent to digits stays glued to them and is not recognized as a command
token, while `M` adjacent to digits is separated as the claim describes. -/
theorem tokenizePathData_drops_C_separation :
    tokenizePathData "C10,10" = ["C10", "10"] ∧
    isCommand "C10" = false ∧
    isCommand "C" = true ∧
    tokenizePathData "M10,10" = ["M", "10", "10"] := by
  refine ⟨by decide, by decide, by decide, by decide⟩

/-- Helper: whenever a single step down from safe height does not already
reach the target depth, the pass loop never terminates at any fuel, because
the source resets `z = cfg.SafeZ` at the end of every pass instead of
continuing from the depth just reached. -/
theorem passLoop_stuck (cfg : Config) (step targetZ x0 y0 : ℝ) (pts : List Point)
    (h : targetZ < cfg.SafeZ - step) :
    ∀ fuel, passLoop cfg step targetZ x0 y0 pts fuel cfg.SafeZ = none := by
  intro fuel
  induction fuel with
  | zero => rfl
  | succ k ih =>
    have h1 : ¬ (cfg.SafeZ - step < targetZ) := by linarith
    have h2 : ¬ (cfg.SafeZ - step ≤ targetZ) := by linarith
    simp only [passLoop, if_neg h1, if_neg h2, ih]

/-- C1 (code bug): with safe height 5, cut depth -1 and step-down 1, the
depth-stepping loop for a one-point entity never terminates, whatever the
fuel: every pass restarts from safe height (`z = cfg.SafeZ` at the end of
the loop body), so the reached depth is 4 forever and never hits -1. -/
theorem writeGcode_stepdown_never_terminates (fuel : Nat) :
    writeGcode [onePointEntity] cfgStep1 fuel = none := by
  have hloop := passLoop_stuck cfgStep1 1 (-1)
    (writePoint ⟨0, 0⟩ cfgStep1).1 (writePoint ⟨0, 0⟩ cfgStep1).2 [⟨0, 0⟩]
    (by norm_num [cfgStep1]) fuel
  simp only [cfgStep1] at hloop
  simp only [writeGcode, cfgStep1, compensate, onePointEntity, pathsGcode, pathGcode]
  norm_num
  rw [hloop]
  simp

/-- C2 (code bug): with safe height 5, cut depth -1 and step-down 2, the
depth range is 6, so the claim expects exactly ceil(6 / 2) = 3 plunge passes
with the last at -1.  Instead `writeGcode` never returns for any fuel: each
pass restarts from safe height (`z = cfg.SafeZ`), so the reached depth stays
at 3 and the entity's pass loop runs forever, emitting no finite sequence of
passes at all. -/
theorem writeGcode_pass_count_wrong (fuel : Nat) (r : List Instr × Option GcodeError) :
    writeGcode [onePointEntity] cfgStep2 fuel ≠ some r := by
  have hloop := passLoop_stuck cfgStep2 2 (-1)
    (writePoint ⟨0, 0⟩ cfgStep2).1 (writePoint ⟨0, 0⟩ cfgStep2).2 [⟨0, 0⟩]
    (by norm_num [cfgStep2]) fuel
  simp only [cfgStep2] at hloop
  simp only [writeGcode, cfgStep2, compensate, onePointEntity, pathsGcode, pathGcode]
  norm_num
  rw [hloop]
  simp

/-- C3 counterexample: with cut depth 0 the configuration error is indeed
returned, but only after four output lines have been emitted — the header
comment, `G21`, `G90`, and a `G0 Z5` rapid, the latter a motion
instruction — contradicting "no output line, and in particular no motion
instruction, is emitted before the error is surfaced". -/
theorem writeGcode_output_precedes_error :
    writeGcode [] cfgZeroDepth 1 =
      some (preamble cfgZeroDepth, some (GcodeError.cutDepthNonNegative 0)) ∧
    preamble cfgZeroDepth =
      [Instr.comment "(Generated by svg2gcode)", Instr.unitsMM, Instr.absMode,
       Instr.rapid none none (some 5)] ∧
    Instr.isMotion (Instr.rapid none none (some 5)) = true := by
  refine ⟨?_, ?_, rfl⟩
  · simp only [writeGcode]
    rw [if_pos (by norm_num [cfgZeroDepth] : (cfgZeroDepth.CutDepth ≥ 0))]
    simp [cfgZeroDepth]
  · simp [preamble, cfgZeroDepth]

/-- C3 as amended: when the configured cut depth is zero or positive,
`writeGcode` reports the configuration error before any entity is processed,
but after emitting the fixed four-line preamble (header comment, `G21`,
`G90`, and a rapid to safe height): the returned output is exactly that
preamble, for every path list and every fuel. -/
theorem writeGcode_error_after_preamble (paths : List GPath) (cfg : Config) (fuel : Nat)
    (h : 0 ≤ cfg.CutDepth) :
    writeGcode paths cfg fuel =
      some (preamble cfg, some (GcodeError.cutDepthNonNegative cfg.CutDepth)) := by
  simp only [writeGcode]
  rw [if_pos (by exact h : cfg.CutDepth ≥ 0)]

/-- Witness for the amended C3 at a concrete configuration and nonempty
path list. -/
theorem writeGcode_error_after_preamble_witness :
    writeGcode [onePointEntity] cfgZeroDepth 3 =
      some (preamble cfgZeroDepth,
        some (GcodeError.cutDepthNonNegative cfgZeroDepth.CutDepth)) :=
  writeGcode_error_after_preamble [onePointEntity] cfgZeroDepth 3 (by norm_num [cfgZeroDepth])

/-- Helper: on the actual-offsetting path (nonzero delta, at least 3 raw
points, at least 3 normalized vertices, non-degenerate area), `offsetPolygon`
is the per-vertex offset map over the normalized polygon in input order,
closed with the first offset vertex repeated at the end. -/
theorem offsetPolygon_offsetting (points : List Point) (delta : ℝ) (mode : String)
    (hd : delta ≠ 0) (hl : ¬ points.length < 3)
    (hn : ¬ (dropClosing points).length < 3)
    (ha : ¬ |shoelace (dropClosing points)| < 1e-9) :
    offsetPolygon points delta mode =
      (List.range (dropClosing points).length).map
        (offsetVertex (dropClosing points) delta (shoelace (dropClosing points)) mode) ++
      [offsetVertex (dropClosing points) delta (shoelace (dropClosing points)) mode 0] := by
  have hne : ¬ (delta = 0 ∨ points.length < 3) := by
    push_neg
    exact ⟨hd, Nat.le_of_not_lt hl⟩
  simp only [offsetPolygon, if_neg hne, if_neg hn, if_neg ha]
  obtain ⟨m, hm⟩ : ∃ m, (dropClosing points).length = m + 1 :=
    ⟨(dropClosing points).length - 1, by omega⟩
  rw [hm, List.range_succ_eq_map]
  simp [List.map_cons]

/-- C6: whenever `offsetPolygon` performs actual offsetting (nonzero delta,
at least 3 vertices after dropping a duplicated closing point,
non-degenerate signed area), the returned polyline is nonempty and closed:
its first point is repeated as its last point. -/
theorem offsetPolygon_closed (points : List Point) (delta : ℝ) (mode : String)
    (hd : delta ≠ 0) (hl : ¬ points.length < 3)
    (hn : ¬ (dropClosing points).length < 3)
    (ha : ¬ |shoelace (dropClosing points)| < 1e-9) :
    offsetPolygon points delta mode ≠ [] ∧
    (offsetPolygon points delta mode).head? = (offsetPolygon points delta mode).getLast? := by
  rw [offsetPolygon_offsetting points delta mode hd hl hn ha]
  obtain ⟨m, hm⟩ : ∃ m, (dropClosing points).length = m + 1 :=
    ⟨(dropClosing points).length - 1, by omega⟩
  rw [hm, List.range_succ_eq_map]
  constructor
  · simp
  · rw [List.getLast?_concat]
    simp [List.map_cons]

/-- C10: on the actual-offsetting path the result has exactly n + 1 points,
where n is the number of normalized input vertices: the i-th result point is
exactly the offset vertex computed from input vertex i (no vertex is added,
merged, or reordered), and the extra final point is the first offset vertex
repeated. -/
theorem offsetPolygon_vertex_count (points : List Point) (delta : ℝ) (mode : String)
    (hd : delta ≠ 0) (hl : ¬ points.length < 3)
    (hn : ¬ (dropClosing points).length < 3)
    (ha : ¬ |shoelace (dropClosing points)| < 1e-9) :
    (offsetPolygon points delta mode).length = (dropClosing points).length + 1 ∧
    (∀ i, i < (dropClosing points).length →
      (offsetPolygon points delta mode)[i]? =
        some (offsetVertex (dropClosing points) delta (shoelace (dropClosing points)) mode i)) ∧
    (offsetPolygon points delta mode)[(dropClosing points).length]? =
      some (offsetVertex (dropClosing points) delta (shoelace (dropClosing points)) mode 0) := by
  rw [offsetPolygon_offsetting points delta mode hd hl hn ha]
  refine ⟨by simp, ?_, ?_⟩
  · intro i hi
    rw [List.getElem?_append_left (by simpa using hi), List.getElem?_map,
      List.getElem?_range hi]
    rfl
  · rw [List.getElem?_append_right (by simp)]
    simp

/-- C7: at a vertex whose adjacent edges are nearly parallel (absolute cross
product of their directions below 1e-9), the emitted offset vertex is exactly
the start point of the second edge's offset line — the current vertex
translated along the second edge's chosen normal by delta — not an
intersection point. -/
theorem offsetPolygon_parallel_fallback (points : List Point) (delta : ℝ) (mode : String)
    (i : ℕ) (hi : i < (dropClosing points).length)
    (hd : delta ≠ 0) (hl : ¬ points.length < 3)
    (hn : ¬ (dropClosing points).length < 3)
    (ha : ¬ |shoelace (dropClosing points)| < 1e-9)
    (hpar : |cross
        (edgeDir (dropClosing points)
          ((i + (dropClosing points).length - 1) % (dropClosing points).length))
        (edgeDir (dropClosing points) i)| < 1e-9) :
    (offsetPolygon points delta mode)[i]? =
      some ⟨(nth (dropClosing points) i).X +
              (edgeNorm (dropClosing points) (shoelace (dropClosing points)) mode i).X * delta,
            (nth (dropClosing points) i).Y +
              (edgeNorm (dropClosing points) (shoelace (dropClosing points)) mode i).Y * delta⟩ := by
  rw [offsetPolygon_offsetting points delta mode hd hl hn ha]
  rw [List.getElem?_append_left (by simpa using hi), List.getElem?_map,
    List.getElem?_range hi, Option.map_some']
  congr 1
  simp only [offsetVertex, if_pos hpar]

/-- Helper: `almostEqualPoint` is `false` when one coordinate difference is
at least 1e-9. -/
theorem almostEqualPoint_eq_false (a b : Point)
    (h : ¬ (|a.X - b.X| < 1e-9 ∧ |a.Y - b.Y| < 1e-9)) :
    almostEqualPoint a b = false := by
  simp only [almostEqualPoint, if_neg h]

/-- Helper: `almostEqualPoint` is `true` when both coordinate differences are
below 1e-9. -/
theorem almostEqualPoint_eq_true (a b : Point)
    (h : |a.X - b.X| < 1e-9 ∧ |a.Y - b.Y| < 1e-9) :
    almostEqualPoint a b = true := by
  simp only [almostEqualPoint, if_pos h]

/-- Helper: the unit square (CCW in the SVG convention), used as a concrete
offsetting input: dropping the closing point is a no-op since its last
vertex differs from the first. -/
theorem dropClosing_unitSquare :
    dropClosing [⟨0, 0⟩, ⟨1, 0⟩, ⟨1, 1⟩, ⟨0, 1⟩] = [⟨0, 0⟩, ⟨1, 0⟩, ⟨1, 1⟩, ⟨0, 1⟩] := by
  simp only [dropClosing]
  rw [show ([(⟨0, 0⟩ : Point), ⟨1, 0⟩, ⟨1, 1⟩, ⟨0, 1⟩].getLast?) = some ⟨0, 1⟩ from rfl]
  simp only [List.headD_cons]
  simp [almostEqualPoint_eq_false ⟨0, 1⟩ ⟨0, 0⟩ (by norm_num)]

/-- Helper: signed area accumulated for the unit square is 1. -/
theorem shoelace_unitSquare :
    shoelace [⟨0, 0⟩, ⟨1, 0⟩, ⟨1, 1⟩, ⟨0, 1⟩] = 1 := by
  simp only [shoelace]
  rw [show (List.range ([(⟨0, 0⟩ : Point), ⟨1, 0⟩, ⟨1, 1⟩, ⟨0, 1⟩].length)) = [0, 1, 2, 3]
    from rfl]
  simp [nth, List.getD]
  norm_num

/-- Witness for C6 at the unit square with delta 1, mode "inside". -/
theorem offsetPolygon_closed_witness :
    offsetPolygon [⟨0, 0⟩, ⟨1, 0⟩, ⟨1, 1⟩, ⟨0, 1⟩] 1 "inside" ≠ [] ∧
    (offsetPolygon [⟨0, 0⟩, ⟨1, 0⟩, ⟨1, 1⟩, ⟨0, 1⟩] 1 "inside").head? =
      (offsetPolygon [⟨0, 0⟩, ⟨1, 0⟩, ⟨1, 1⟩, ⟨0, 1⟩] 1 "inside").getLast? :=
  offsetPolygon_closed _ 1 "inside" (by norm_num) (by norm_num)
    (by rw [dropClosing_unitSquare]; norm_num)
    (by rw [dropClosing_unitSquare, shoelace_unitSquare]; norm_num)

/-- Helper: dropping the closing point of the 3-by-2 rectangle is a no-op. -/
theorem dropClosing_rect :
    dropClosing [⟨0, 0⟩, ⟨3, 0⟩, ⟨3, 2⟩, ⟨0, 2⟩] = [⟨0, 0⟩, ⟨3, 0⟩, ⟨3, 2⟩, ⟨0, 2⟩] := by
  simp only [dropClosing]
  rw [show ([(⟨0, 0⟩ : Point), ⟨3, 0⟩, ⟨3, 2⟩, ⟨0, 2⟩].getLast?) = some ⟨0, 2⟩ from rfl]
  simp only [List.headD_cons]
  simp [almostEqualPoint_eq_false ⟨0, 2⟩ ⟨0, 0⟩ (by norm_num)]

/-- Helper: signed area accumulated for the 3-by-2 rectangle is 6. -/
theorem shoelace_rect :
    shoelace [⟨0, 0⟩, ⟨3, 0⟩, ⟨3, 2⟩, ⟨0, 2⟩] = 6 := by
  simp only [shoelace]
  rw [show (List.range ([(⟨0, 0⟩ : Point), ⟨3, 0⟩, ⟨3, 2⟩, ⟨0, 2⟩].length)) = [0, 1, 2, 3]
    from rfl]
  simp [nth, List.getD]
  norm_num

/-- Witness for C10 at the 3-by-2 rectangle with delta 1, mode "outside". -/
theorem offsetPolygon_vertex_count_witness :
    (offsetPolygon [⟨0, 0⟩, ⟨3, 0⟩, ⟨3, 2⟩, ⟨0, 2⟩] 1 "outside").length =
      (dropClosing [⟨0, 0⟩, ⟨3, 0⟩, ⟨3, 2⟩, ⟨0, 2⟩]).length + 1 ∧
    (∀ i, i < (dropClosing [⟨0, 0⟩, ⟨3, 0⟩, ⟨3, 2⟩, ⟨0, 2⟩]).length →
      (offsetPolygon [⟨0, 0⟩, ⟨3, 0⟩, ⟨3, 2⟩, ⟨0, 2⟩] 1 "outside")[i]? =
        some (offsetVertex (dropClosing [⟨0, 0⟩, ⟨3, 0⟩, ⟨3, 2⟩, ⟨0, 2⟩]) 1
          (shoelace (dropClosing [⟨0, 0⟩, ⟨3, 0⟩, ⟨3, 2⟩, ⟨0, 2⟩])) "outside" i)) ∧
    (offsetPolygon [⟨0, 0⟩, ⟨3, 0⟩, ⟨3, 2⟩, ⟨0, 2⟩] 1
        "outside")[(dropClosing [⟨0, 0⟩, ⟨3, 0⟩, ⟨3, 2⟩, ⟨0, 2⟩]).length]? =
      some (offsetVertex (dropClosing [⟨0, 0⟩, ⟨3, 0⟩, ⟨3, 2⟩, ⟨0, 2⟩]) 1
        (shoelace (dropClosing [⟨0, 0⟩, ⟨3, 0⟩, ⟨3, 2⟩, ⟨0, 2⟩])) "outside" 0) :=
  offsetPolygon_vertex_count _ 1 "outside" (by norm_num) (by norm_num)
    (by rw [dropClosing_rect]; norm_num)
    (by rw [dropClosing_rect, shoelace_rect]; norm_num)

/-- Helper: dropping the closing point of the L-free pentagon (which has a
collinear vertex at (1,0)) is a no-op. -/
theorem dropClosing_pentagon :
    dropClosing [⟨0, 0⟩, ⟨1, 0⟩, ⟨2, 0⟩, ⟨2, 1⟩, ⟨0, 1⟩] =
      [⟨0, 0⟩, ⟨1, 0⟩, ⟨2, 0⟩, ⟨2, 1⟩, ⟨0, 1⟩] := by
  simp only [dropClosing]
  rw [show ([(⟨0, 0⟩ : Point), ⟨1, 0⟩, ⟨2, 0⟩, ⟨2, 1⟩, ⟨0, 1⟩].getLast?) = some ⟨0, 1⟩
    from rfl]
  simp only [List.headD_cons]
  simp [almostEqualPoint_eq_false ⟨0, 1⟩ ⟨0, 0⟩ (by norm_num)]

/-- Helper: signed area accumulated for the pentagon is 2. -/
theorem shoelace_pentagon :
    shoelace [⟨0, 0⟩, ⟨1, 0⟩, ⟨2, 0⟩, ⟨2, 1⟩, ⟨0, 1⟩] = 2 := by
  simp only [shoelace]
  rw [show (List.range ([(⟨0, 0⟩ : Point), ⟨1, 0⟩, ⟨2, 0⟩, ⟨2, 1⟩, ⟨0, 1⟩].length)) =
    [0, 1, 2, 3, 4] from rfl]
  simp [nth, List.getD]
  norm_num

/-- Witness for C7: in the pentagon the vertex at index 1 has collinear
adjacent edges (both directions are (1,0)), so the fallback applies. -/
theorem offsetPolygon_parallel_fallback_witness :
    (offsetPolygon [⟨0, 0⟩, ⟨1, 0⟩, ⟨2, 0⟩, ⟨2, 1⟩, ⟨0, 1⟩] (1 / 2) "inside")[1]? =
      some ⟨(nth (dropClosing [⟨0, 0⟩, ⟨1, 0⟩, ⟨2, 0⟩, ⟨2, 1⟩, ⟨0, 1⟩]) 1).X +
              (edgeNorm (dropClosing [⟨0, 0⟩, ⟨1, 0⟩, ⟨2, 0⟩, ⟨2, 1⟩, ⟨0, 1⟩])
                (shoelace (dropClosing [⟨0, 0⟩, ⟨1, 0⟩, ⟨2, 0⟩, ⟨2, 1⟩, ⟨0, 1⟩]))
                "inside" 1).X * (1 / 2),
            (nth (dropClosing [⟨0, 0⟩, ⟨1, 0⟩, ⟨2, 0⟩, ⟨2, 1⟩, ⟨0, 1⟩]) 1).Y +
              (edgeNorm (dropClosing [⟨0, 0⟩, ⟨1, 0⟩, ⟨2, 0⟩, ⟨2, 1⟩, ⟨0, 1⟩])
                (shoelace (dropClosing [⟨0, 0⟩, ⟨1, 0⟩, ⟨2, 0⟩, ⟨2, 1⟩, ⟨0, 1⟩]))
                "inside" 1).Y * (1 / 2)⟩ :=
  offsetPolygon_parallel_fallback _ (1 / 2) "inside" 1
    (by rw [dropClosing_pentagon]; norm_num)
    (by norm_num) (by norm_num)
    (by rw [dropClosing_pentagon]; norm_num)
    (by rw [dropClosing_pentagon, shoelace_pentagon]; norm_num)
    (by rw [dropClosing_pentagon]
        simp [edgeDir, nth, List.getD, cross]
        norm_num)

/-- Helper: the closed triangle's duplicated closing point IS dropped by the
normalization. -/
theorem dropClosing_closedTriangle :
    dropClosing [⟨0, 0⟩, ⟨1, 0⟩, ⟨0, 1⟩, ⟨0, 0⟩] = [⟨0, 0⟩, ⟨1, 0⟩, ⟨0, 1⟩] := by
  simp only [dropClosing]
  rw [show ([(⟨0, 0⟩ : Point), ⟨1, 0⟩, ⟨0, 1⟩, ⟨0, 0⟩].getLast?) = some ⟨0, 0⟩ from rfl]
  simp only [List.headD_cons]
  simp [almostEqualPoint_eq_true ⟨0, 0⟩ ⟨0, 0⟩ (by norm_num)]

/-- C4 counterexample: for the closed triangle (with duplicated closing
point) and delta = 0, `offsetPolygon` returns the RAW 4-point input, while
the normalized input has 3 points — the result is not identical to the
normalized input, within any epsilon. -/
theorem offsetPolygon_delta_zero_not_normalized :
    offsetPolygon [⟨0, 0⟩, ⟨1, 0⟩, ⟨0, 1⟩, ⟨0, 0⟩] 0 "inside" =
      [⟨0, 0⟩, ⟨1, 0⟩, ⟨0, 1⟩, ⟨0, 0⟩] ∧
    dropClosing [⟨0, 0⟩, ⟨1, 0⟩, ⟨0, 1⟩, ⟨0, 0⟩] = [⟨0, 0⟩, ⟨1, 0⟩, ⟨0, 1⟩] ∧
    (offsetPolygon [⟨0, 0⟩, ⟨1, 0⟩, ⟨0, 1⟩, ⟨0, 0⟩] 0 "inside").length ≠
      (dropClosing [⟨0, 0⟩, ⟨1, 0⟩, ⟨0, 1⟩, ⟨0, 0⟩]).length := by
  have h1 : offsetPolygon [⟨0, 0⟩, ⟨1, 0⟩, ⟨0, 1⟩, ⟨0, 0⟩] 0 "inside" =
      [⟨0, 0⟩, ⟨1, 0⟩, ⟨0, 1⟩, ⟨0, 0⟩] := by
    simp only [offsetPolygon]
    simp
  exact ⟨h1, dropClosing_closedTriangle, by rw [h1, dropClosing_closedTriangle]; simp⟩

/-- C4 as amended: with delta = 0 or fewer than 3 raw input points the RAW
input is returned unchanged (a duplicated closing point is NOT dropped);
only when the input has at least 3 points, delta is nonzero, and fewer than
3 points remain after dropping a duplicated closing point is the NORMALIZED
list (not the raw input) returned. -/
theorem offsetPolygon_degenerate_cases (points : List Point) (delta : ℝ) (mode : String) :
    (delta = 0 ∨ points.length < 3 → offsetPolygon points delta mode = points) ∧
    (¬ (delta = 0 ∨ points.length < 3) → (dropClosing points).length < 3 →
      offsetPolygon points delta mode = dropClosing points) := by
  constructor
  · intro h
    simp only [offsetPolygon, if_pos h]
  · intro h1 h2
    simp only [offsetPolygon, if_neg h1, if_pos h2]

/-- Witness for the amended C4: the delta = 0 branch on the closed triangle,
and the degenerate two-distinct-point branch on a closed segment. -/
theorem offsetPolygon_degenerate_cases_witness :
    offsetPolygon [⟨0, 0⟩, ⟨1, 0⟩, ⟨0, 1⟩, ⟨0, 0⟩] 0 "inside" =
      [⟨0, 0⟩, ⟨1, 0⟩, ⟨0, 1⟩, ⟨0, 0⟩] ∧
    offsetPolygon [⟨0, 0⟩, ⟨2, 0⟩, ⟨0, 0⟩] 1 "outside" =
      dropClosing [⟨0, 0⟩, ⟨2, 0⟩, ⟨0, 0⟩] :=
  ⟨(offsetPolygon_degenerate_cases _ 0 "inside").1 (Or.inl rfl),
   (offsetPolygon_degenerate_cases _ 1 "outside").2
     (by norm_num)
     (by simp only [dropClosing]
         rw [show ([(⟨0, 0⟩ : Point), ⟨2, 0⟩, ⟨0, 0⟩].getLast?) = some ⟨0, 0⟩ from rfl]
         simp only [List.headD_cons]
         simp [almostEqualPoint_eq_true ⟨0, 0⟩ ⟨0, 0⟩ (by norm_num)])⟩

/-- Helper: the squared distance to the foot of the perpendicular is minimal
among squared distances to points of the line. -/
theorem sq_dist_foot_le (u v dx dy s : ℝ) (hD : 0 < dx * dx + dy * dy) :
    (u - (u * dx + v * dy) / (dx * dx + dy * dy) * dx) ^ 2 +
      (v - (u * dx + v * dy) / (dx * dx + dy * dy) * dy) ^ 2 ≤
      (u - s * dx) ^ 2 + (v - s * dy) ^ 2 := by
  set t := (u * dx + v * dy) / (dx * dx + dy * dy) with ht_def
  have ht : t * (dx * dx + dy * dy) = u * dx + v * dy := by
    rw [ht_def]
    field_simp
  have h2 : (t - s) * (t * (dx * dx + dy * dy) - (u * dx + v * dy)) = 0 := by
    rw [ht]
    ring
  nlinarith [mul_nonneg hD.le (sq_nonneg (t - s)), h2]

/-- Helper: `distPointToLine p a b` is at most the Euclidean distance from
`p` to any point `a + s (b - a)` of the line, including the degenerate
`a = b` case. -/
theorem distPointToLine_le_point (p a b : Point) (s : ℝ) :
    distPointToLine p a b ≤
      Real.sqrt ((p.X - (a.X + s * (b.X - a.X))) ^ 2 +
        (p.Y - (a.Y + s * (b.Y - a.Y))) ^ 2) := by
  simp only [distPointToLine, hypot]
  by_cases hd : b.X - a.X = 0 ∧ b.Y - a.Y = 0
  · rw [if_pos hd]
    have hx : a.X + s * (b.X - a.X) = a.X := by rw [hd.1]; ring
    have hy : a.Y + s * (b.Y - a.Y) = a.Y := by rw [hd.2]; ring
    rw [hx, hy]
  · rw [if_neg hd]
    have hD : 0 < (b.X - a.X) * (b.X - a.X) + (b.Y - a.Y) * (b.Y - a.Y) := by
      rcases not_and_or.mp hd with h | h
      · nlinarith [mul_self_nonneg (b.Y - a.Y), mul_self_pos.mpr h]
      · nlinarith [mul_self_nonneg (b.X - a.X), mul_self_pos.mpr h]
    apply Real.sqrt_le_sqrt
    nlinarith [sq_dist_foot_le (p.X - a.X) (p.Y - a.Y) (b.X - a.X) (b.Y - a.Y) s hD]

/-- Helper: squared distance from `p1` to the one-third point of the chord is
at most 10/9 of the termination measure. -/
theorem d1_sq_le (p0 p1 p2 p3 : Point) :
    (p1.X - (p0.X + 1 / 3 * (p3.X - p0.X))) ^ 2 +
      (p1.Y - (p0.Y + 1 / 3 * (p3.Y - p0.Y))) ^ 2 ≤
      10 / 9 * bezMeasure p0 p1 p2 p3 := by
  have hA : nsq (secA p0 p1 p2) ≤ bezMeasure p0 p1 p2 p3 := le_max_left _ _
  have hB : nsq (secA p1 p2 p3) ≤ bezMeasure p0 p1 p2 p3 := le_max_right _ _
  simp only [nsq, secA] at hA hB
  nlinarith [hA, hB,
    sq_nonneg (2 * (p0.X - 2 * p1.X + p2.X) - (p1.X - 2 * p2.X + p3.X)),
    sq_nonneg (2 * (p0.Y - 2 * p1.Y + p2.Y) - (p1.Y - 2 * p2.Y + p3.Y))]

/-- Helper: squared distance from `p2` to the two-thirds point of the chord is
at most 10/9 of the termination measure. -/
theorem d2_sq_le (p0 p1 p2 p3 : Point) :
    (p2.X - (p0.X + 2 / 3 * (p3.X - p0.X))) ^ 2 +
      (p2.Y - (p0.Y + 2 / 3 * (p3.Y - p0.Y))) ^ 2 ≤
      10 / 9 * bezMeasure p0 p1 p2 p3 := by
  have hA : nsq (secA p0 p1 p2) ≤ bezMeasure p0 p1 p2 p3 := le_max_left _ _
  have hB : nsq (secA p1 p2 p3) ≤ bezMeasure p0 p1 p2 p3 := le_max_right _ _
  simp only [nsq, secA] at hA hB
  nlinarith [hA, hB,
    sq_nonneg ((p0.X - 2 * p1.X + p2.X) - 2 * (p1.X - 2 * p2.X + p3.X)),
    sq_nonneg ((p0.Y - 2 * p1.Y + p2.Y) - 2 * (p1.Y - 2 * p2.Y + p3.Y))]

/-- Helper: when the measure is at most (9/10) flatness^2, the flatness test
of `flattenCubicBezier` passes. -/
theorem flatten_test_of_small (p0 p1 p2 p3 : Point) (flatness : ℝ) (hf : 0 < flatness)
    (h : bezMeasure p0 p1 p2 p3 ≤ 9 / 10 * flatness ^ 2) :
    distPointToLine p1 p0 p3 ≤ flatness ∧ distPointToLine p2 p0 p3 ≤ flatness := by
  constructor
  · refine le_trans (distPointToLine_le_point p1 p0 p3 (1 / 3)) ?_
    rw [show flatness = Real.sqrt (flatness ^ 2) from (Real.sqrt_sq hf.le).symm]
    apply Real.sqrt_le_sqrt
    nlinarith [d1_sq_le p0 p1 p2 p3, h]
  · refine le_trans (distPointToLine_le_point p2 p0 p3 (2 / 3)) ?_
    rw [show flatness = Real.sqrt (flatness ^ 2) from (Real.sqrt_sq hf.le).symm]
    apply Real.sqrt_le_sqrt
    nlinarith [d2_sq_le p0 p1 p2 p3, h]

/-- Helper: the termination measure of the left De Casteljau half is at most
one sixteenth of the original measure. -/
theorem bezMeasure_left_le (p0 p1 p2 p3 : Point) :
    bezMeasure p0 (lerp p0 p1 0.5)
      (lerp (lerp p0 p1 0.5) (lerp p1 p2 0.5) 0.5)
      (lerp (lerp (lerp p0 p1 0.5) (lerp p1 p2 0.5) 0.5)
        (lerp (lerp p1 p2 0.5) (lerp p2 p3 0.5) 0.5) 0.5) ≤
      bezMeasure p0 p1 p2 p3 / 16 := by
  have hA : nsq (secA p0 p1 p2) ≤ bezMeasure p0 p1 p2 p3 := le_max_left _ _
  have hB : nsq (secA p1 p2 p3) ≤ bezMeasure p0 p1 p2 p3 := le_max_right _ _
  simp only [nsq, secA] at hA hB
  conv_lhs => rw [bezMeasure]
  apply max_le
  · simp only [nsq, secA, lerp]
    norm_num
    nlinarith [hA, hB]
  · simp only [nsq, secA, lerp]
    norm_num
    nlinarith [hA, hB,
      sq_nonneg ((p0.X - 2 * p1.X + p2.X) - (p1.X - 2 * p2.X + p3.X)),
      sq_nonneg ((p0.Y - 2 * p1.Y + p2.Y) - (p1.Y - 2 * p2.Y + p3.Y))]

/-- Helper: the termination measure of the right De Casteljau half is at most
one sixteenth of the original measure. -/
theorem bezMeasure_right_le (p0 p1 p2 p3 : Point) :
    bezMeasure
      (lerp (lerp (lerp p0 p1 0.5) (lerp p1 p2 0.5) 0.5)
        (lerp (lerp p1 p2 0.5) (lerp p2 p3 0.5) 0.5) 0.5)
      (lerp (lerp p1 p2 0.5) (lerp p2 p3 0.5) 0.5)
      (lerp p2 p3 0.5) p3 ≤
      bezMeasure p0 p1 p2 p3 / 16 := by
  have hA : nsq (secA p0 p1 p2) ≤ bezMeasure p0 p1 p2 p3 := le_max_left _ _
  have hB : nsq (secA p1 p2 p3) ≤ bezMeasure p0 p1 p2 p3 := le_max_right _ _
  simp only [nsq, secA] at hA hB
  conv_lhs => rw [bezMeasure]
  apply max_le
  · simp only [nsq, secA, lerp]
    norm_num
    nlinarith [hA, hB,
      sq_nonneg ((p0.X - 2 * p1.X + p2.X) - (p1.X - 2 * p2.X + p3.X)),
      sq_nonneg ((p0.Y - 2 * p1.Y + p2.Y) - (p1.Y - 2 * p2.Y + p3.Y))]
  · simp only [nsq, secA, lerp]
    norm_num
    nlinarith [hA, hB]

/-- Helper: one-step unfolding of `flattenCubicBezier` at positive fuel. -/
theorem flattenCubicBezier_succ (fuel : ℕ) (p0 p1 p2 p3 : Point) (flatness : ℝ) :
    flattenCubicBezier (fuel + 1) p0 p1 p2 p3 flatness =
      if distPointToLine p1 p0 p3 ≤ flatness ∧ distPointToLine p2 p0 p3 ≤ flatness then
        some [p3]
      else
        match flattenCubicBezier fuel p0 (lerp p0 p1 0.5)
            (lerp (lerp p0 p1 0.5) (lerp p1 p2 0.5) 0.5)
            (lerp (lerp (lerp p0 p1 0.5) (lerp p1 p2 0.5) 0.5)
              (lerp (lerp p1 p2 0.5) (lerp p2 p3 0.5) 0.5) 0.5) flatness,
          flattenCubicBezier fuel
            (lerp (lerp (lerp p0 p1 0.5) (lerp p1 p2 0.5) 0.5)
              (lerp (lerp p1 p2 0.5) (lerp p2 p3 0.5) 0.5) 0.5)
            (lerp (lerp p1 p2 0.5) (lerp p2 p3 0.5) 0.5)
            (lerp p2 p3 0.5) p3 flatness with
        | some l, some r => some (l ++ r)
        | _, _ => none := rfl

/-- Helper: fuel `k + 1` suffices whenever the termination measure is at most
`(9/10) flatness^2 16^k`. -/
theorem flattenCubicBezier_isSome_of_measure (flatness : ℝ) (hf : 0 < flatness) :
    ∀ (k : ℕ) (p0 p1 p2 p3 : Point),
      bezMeasure p0 p1 p2 p3 ≤ 9 / 10 * flatness ^ 2 * 16 ^ k →
      (flattenCubicBezier (k + 1) p0 p1 p2 p3 flatness).isSome := by
  intro k
  induction k with
  | zero =>
    intro p0 p1 p2 p3 h
    have htest := flatten_test_of_small p0 p1 p2 p3 flatness hf
      (by nlinarith [h, pow_zero (16 : ℝ)])
    rw [flattenCubicBezier_succ, if_pos htest]
    rfl
  | succ k ih =>
    intro p0 p1 p2 p3 h
    by_cases htest : distPointToLine p1 p0 p3 ≤ flatness ∧ distPointToLine p2 p0 p3 ≤ flatness
    · rw [flattenCubicBezier_succ, if_pos htest]
      rfl
    · have hL := ih p0 (lerp p0 p1 0.5)
        (lerp (lerp p0 p1 0.5) (lerp p1 p2 0.5) 0.5)
        (lerp (lerp (lerp p0 p1 0.5) (lerp p1 p2 0.5) 0.5)
          (lerp (lerp p1 p2 0.5) (lerp p2 p3 0.5) 0.5) 0.5)
        (by nlinarith [bezMeasure_left_le p0 p1 p2 p3, h, pow_succ (16 : ℝ) k,
          pow_pos (show (0 : ℝ) < 16 by norm_num) k])
      have hR := ih
        (lerp (lerp (lerp p0 p1 0.5) (lerp p1 p2 0.5) 0.5)
          (lerp (lerp p1 p2 0.5) (lerp p2 p3 0.5) 0.5) 0.5)
        (lerp (lerp p1 p2 0.5) (lerp p2 p3 0.5) 0.5)
        (lerp p2 p3 0.5) p3
        (by nlinarith [bezMeasure_right_le p0 p1 p2 p3, h, pow_succ (16 : ℝ) k,
          pow_pos (show (0 : ℝ) < 16 by norm_num) k])
      obtain ⟨l, hl⟩ := Option.isSome_iff_exists.mp hL
      obtain ⟨r, hr⟩ := Option.isSome_iff_exists.mp hR
      rw [flattenCubicBezier_succ, if_neg htest, hl, hr]
      rfl

/-- C8: over exact real semantics, `flattenCubicBezier` terminates for every
set of four control points (degenerate ones included) and every positive
flatness tolerance: some finite recursion depth reaches subsegments where
both control-point distances to the chord (Euclidean point distance for a
zero-length chord) are at most the tolerance. -/
theorem flattenCubicBezier_terminates (p0 p1 p2 p3 : Point) (flatness : ℝ)
    (hf : 0 < flatness) :
    ∃ fuel, (flattenCubicBezier fuel p0 p1 p2 p3 flatness).isSome := by
  obtain ⟨k, hk⟩ := pow_unbounded_of_one_lt
    (bezMeasure p0 p1 p2 p3 / (9 / 10 * flatness ^ 2)) (by norm_num : (1 : ℝ) < 16)
  refine ⟨k + 1, flattenCubicBezier_isSome_of_measure flatness hf k p0 p1 p2 p3 ?_⟩
  have hc : 0 < 9 / 10 * flatness ^ 2 := by positivity
  rw [div_lt_iff₀ hc] at hk
  nlinarith [hk]

/-- Witness for C8: the curve `M0,0 C0,0 10,0 10,10` at the source's fixed
flatness tolerance 0.1. -/
theorem flattenCubicBezier_terminates_witness :
    (0 : ℝ) < 0.1 ∧
    ∃ fuel, (flattenCubicBezier fuel ⟨0, 0⟩ ⟨0, 0⟩ ⟨10, 0⟩ ⟨10, 10⟩ 0.1).isSome :=
  ⟨by norm_num, flattenCubicBezier_terminates ⟨0, 0⟩ ⟨0, 0⟩ ⟨10, 0⟩ ⟨10, 10⟩ 0.1 (by norm_num)⟩
